import Mathlib

/-!
Verification development for the LD46-Lighthouse-Keeper rendering core
(`gfx-lib/src/mesh.rs`, `gfx-lib/src/renderer.rs`, `gfx-lib/src/color.rs`,
`gfx-lib/src/sprite.rs`).

Embedding conventions:
* `f32` is modelled as `ℚ`; every computation the properties touch is exact
  (dyadic constants, additions, multiplications, divisions by powers of two).
* `u8`/`u16` fields are modelled as `Fin 256` / `Fin 65536`, matching the
  Rust types' value ranges; `u32`/`u64`/`usize` values are `Nat`, with an
  explicit `% 2^32` where the source truncates (`mesh.vertices.len() as u32`).
  `gen_key`'s `u64` arithmetic never wraps (see `gen_key_lt`), so plain `Nat`
  addition is faithful there.
* `HashMap` is modelled as an association list with replace-on-insert
  semantics (`alistInsert`); the renderer never iterates its maps, so only
  lookup/insert behaviour matters.
* GPU-side objects (buffers, images, descriptor sets, samplers, fences) are
  modelled as numeric handles drawn from a fresh-handle counter, plus effect
  counters / logs for allocations, descriptor writes and releases.
-/

namespace Gfx

/-- `f32`, modelled exactly as a rational. -/
abbrev F32 := ℚ

/-- `Color { r, g, b, a }` from `color.rs`. -/
structure Color where
  r : F32
  g : F32
  b : F32
  a : F32
deriving DecidableEq, Repr

/-- `Color::data(&self) -> [f32; 4]`. -/
def Color.data (c : Color) : F32 × F32 × F32 × F32 := (c.r, c.g, c.b, c.a)

/-- `COLOR_WHITE` from `color.rs`. -/
def COLOR_WHITE : Color := ⟨1, 1, 1, 1⟩

/-- `SpriteRegion { x, y, w, h : u32 }` from `sprite.rs`. -/
structure SpriteRegion where
  x : Nat
  y : Nat
  w : Nat
  h : Nat
deriving DecidableEq, Repr

/-- `Point2f` (an `(f32, f32)` point). -/
structure Point2f where
  x : F32
  y : F32
deriving DecidableEq, Repr

/-- `Vector2f` (an `(f32, f32)` vector). -/
structure Vector2f where
  x : F32
  y : F32
deriving DecidableEq, Repr

/-- `Vertex { position: [f32; 3], color: [f32; 4], uv: [f32; 2] }` from `mesh.rs`. -/
structure Vertex where
  position : F32 × F32 × F32
  color : F32 × F32 × F32 × F32
  uv : F32 × F32
deriving DecidableEq, Repr

/-- `Mesh { vertices: Vec<Vertex>, indices: Vec<u32> }` from `mesh.rs`.
Index values are `u32`, stored as `Nat` (< 2^32 by construction). -/
structure Mesh where
  vertices : List Vertex
  indices : List Nat
deriving DecidableEq, Repr

/-- `Mesh::clear` empties both vectors. -/
def Mesh.clear (_m : Mesh) : Mesh := ⟨[], []⟩

/-- Truncation of `usize` to `u32` (`mesh.vertices.len() as u32`). -/
def u32cast (n : Nat) : Nat := n % 2 ^ 32

/-- `add_sprite` from `mesh.rs` (lines 23–89): computes the UV sub-rectangle
from the atlas region, offsets the position by `-(origin * scale)`, scales the
quad by `region.size * scale`, and appends 4 vertices
(top-left, top-right, bottom-right, bottom-left) and 6 indices. -/
def add_sprite (mesh : Mesh) (x y : F32) (origin : Point2f) (scale : Vector2f)
    (color : Color) (region : SpriteRegion)
    (spritesheet_width spritesheet_height : Nat) : Mesh :=
  let vertex_count : Nat := u32cast mesh.vertices.length
  let c := color.data
  let u : F32 := (region.x : F32) / (spritesheet_width : F32)
  let v : F32 := (region.y : F32) / (spritesheet_height : F32)
  let u_width : F32 := (region.w : F32) / (spritesheet_width : F32)
  let v_height : F32 := (region.h : F32) / (spritesheet_height : F32)
  let x := x - origin.x * scale.x
  let y := y - origin.y * scale.y
  let w := (region.w : F32) * scale.x
  let h := (region.h : F32) * scale.y
  let new_vertices : List Vertex :=
    [ ⟨(x, y, 0), c, (u, v)⟩
    , ⟨(x + w, y, 0), c, (u + u_width, v)⟩
    , ⟨(x + w, y + h, 0), c, (u + u_width, v + v_height)⟩
    , ⟨(x, y + h, 0), c, (u, v + v_height)⟩ ]
  let new_indices : List Nat :=
    [ vertex_count
    , u32cast (vertex_count + 1)
    , u32cast (vertex_count + 2)
    , u32cast (vertex_count + 2)
    , u32cast (vertex_count + 3)
    , vertex_count ]
  ⟨mesh.vertices ++ new_vertices, mesh.indices ++ new_indices⟩

/-- `add_quad` from `mesh.rs` (lines 91–140): appends 4 vertices at the given
corners with z = 0 and the unit-square UVs, plus 6 indices. -/
def add_quad (mesh : Mesh) (bl br tl tr : F32 × F32) (color : Color) : Mesh :=
  let vertex_count : Nat := u32cast mesh.vertices.length
  let c := color.data
  let new_vertices : List Vertex :=
    [ ⟨(tl.1, tl.2, 0), c, (0, 0)⟩
    , ⟨(tr.1, tr.2, 0), c, (1, 0)⟩
    , ⟨(br.1, br.2, 0), c, (1, 1)⟩
    , ⟨(bl.1, bl.2, 0), c, (0, 1)⟩ ]
  let new_indices : List Nat :=
    [ vertex_count
    , u32cast (vertex_count + 1)
    , u32cast (vertex_count + 2)
    , u32cast (vertex_count + 2)
    , u32cast (vertex_count + 3)
    , vertex_count ]
  ⟨mesh.vertices ++ new_vertices, mesh.indices ++ new_indices⟩

/-- `Transparency` from `renderer.rs`: `Opaque = 0`, `Transparent = 1`. -/
inductive Transparency
  | Opaque
  | Transparent
deriving DecidableEq, Repr

/-- The discriminant used by the `as RenderKey` cast. -/
def Transparency.toNat : Transparency → Nat
  | .Opaque => 0
  | .Transparent => 1

/-- `Renderable` from `renderer.rs`: quad or sprite payload. -/
inductive Renderable
  | Quad (bl br tl tr : F32 × F32) (color : Color)
  | Sprite (x y : F32) (pivot : Point2f) (scale : Vector2f) (color : Color)
      (region : SpriteRegion)
deriving DecidableEq, Repr

/-- `RenderCommand` from `renderer.rs`. `shader_program_id`/`tex_id` are
`u16`, `layer` is `u8`. -/
structure RenderCommand where
  transparency : Transparency
  shader_program_id : Fin 65536
  tex_id : Fin 65536
  layer : Fin 256
  data : Renderable
deriving DecidableEq, Repr

/-- `RenderBatch::gen_key` (renderer.rs lines 265–275):
`(t << 56) + (layer << 48) + (program << 32) + (tex << 16)` in `u64`.
The summands occupy disjoint bit ranges and the total stays below `2^64`
(`gen_key_lt`), so `Nat` addition is faithful. -/
def gen_key (transparency : Transparency) (layer : Fin 256)
    (shader_program_id tex_id : Fin 65536) : Nat :=
  transparency.toNat * 2 ^ 56 + layer.val * 2 ^ 48 +
    shader_program_id.val * 2 ^ 32 + tex_id.val * 2 ^ 16

/-- `RenderCommand::key`. -/
def RenderCommand.key (c : RenderCommand) : Nat :=
  gen_key c.transparency c.layer c.shader_program_id c.tex_id

theorem gen_key_lt (t : Transparency) (l : Fin 256) (p x : Fin 65536) :
    gen_key t l p x < 2 ^ 64 := by
  have hl := l.isLt
  have hp := p.isLt
  have hx := x.isLt
  cases t <;> simp only [gen_key, Transparency.toNat] <;> omega

/-- Lexicographic strict order on the field tuple
`(transparency, layer, shader_program_id, texture_id)` of two commands. -/
def tuple_lex_lt (a b : RenderCommand) : Prop :=
  a.transparency.toNat < b.transparency.toNat ∨
    (a.transparency = b.transparency ∧
      (a.layer.val < b.layer.val ∨
        (a.layer = b.layer ∧
          (a.shader_program_id.val < b.shader_program_id.val ∨
            (a.shader_program_id = b.shader_program_id ∧
              a.tex_id.val < b.tex_id.val)))))

/-- C2: `gen_key` is an order embedding of the field tuple under lexicographic
order into the `u64` key: `key A < key B` iff the tuple of `A` is
lexicographically smaller (so every Opaque key is below every Transparent key),
and `key A = key B` iff all four fields agree. -/
theorem gen_key_order_embedding (A B : RenderCommand) :
    (A.key < B.key ↔ tuple_lex_lt A B) ∧
    (A.key = B.key ↔
      (A.transparency = B.transparency ∧ A.layer = B.layer ∧
        A.shader_program_id = B.shader_program_id ∧ A.tex_id = B.tex_id)) ∧
    (A.transparency = Transparency.Opaque →
      B.transparency = Transparency.Transparent → A.key < B.key) := by
  have hlA := A.layer.isLt
  have hlB := B.layer.isLt
  have hpA := A.shader_program_id.isLt
  have hpB := B.shader_program_id.isLt
  have hxA := A.tex_id.isLt
  have hxB := B.tex_id.isLt
  simp only [RenderCommand.key, gen_key, tuple_lex_lt, Fin.ext_iff]
  cases hA : A.transparency <;> cases hB : B.transparency <;>
    simp only [Transparency.toNat, reduceCtorEq, eq_self_iff_true, true_and,
      false_and, and_true, iff_true, iff_false, true_iff, false_iff,
      not_false_iff, false_or, true_or, or_false, forall_const, imp_false,
      IsEmpty.forall_iff, imp_self, Nat.lt_irrefl] <;>
    omega

/-- Witness for C2 at concrete commands: an Opaque command with larger layer,
program and texture ids still keys strictly below a Transparent command. -/
theorem gen_key_order_embedding_witness :
    RenderCommand.key ⟨.Opaque, 9, 9, 9, .Quad (0,0) (0,0) (0,0) (0,0) COLOR_WHITE⟩ <
      RenderCommand.key ⟨.Transparent, 1, 1, 1, .Quad (0,0) (0,0) (0,0) (0,0) COLOR_WHITE⟩ :=
  (gen_key_order_embedding
      ⟨.Opaque, 9, 9, 9, .Quad (0,0) (0,0) (0,0) (0,0) COLOR_WHITE⟩
      ⟨.Transparent, 1, 1, 1, .Quad (0,0) (0,0) (0,0) (0,0) COLOR_WHITE⟩).2.2 rfl rfl

/-- C4: each `add_quad` / `add_sprite` call appends exactly 4 vertices and
exactly the indices `[n, n+1, n+2, n+2, n+3, n]` where `n` is the previous
vertex count; on the empty mesh with the given corners and white color,
`add_quad` yields the unit-square UV set and indices `[0,1,2,2,3,0]`. -/
theorem add_quad_add_sprite_append_spec
    (m : Mesh) (bl br tl tr : F32 × F32) (col : Color)
    (x y : F32) (pivot : Point2f) (scale : Vector2f) (region : SpriteRegion)
    (aw ah : Nat) (h : m.vertices.length + 3 < 2 ^ 32) :
    ((add_quad m bl br tl tr col).vertices.length = m.vertices.length + 4 ∧
     (add_quad m bl br tl tr col).indices =
       m.indices ++ [m.vertices.length, m.vertices.length + 1,
         m.vertices.length + 2, m.vertices.length + 2,
         m.vertices.length + 3, m.vertices.length] ∧
     (add_sprite m x y pivot scale col region aw ah).vertices.length =
       m.vertices.length + 4 ∧
     (add_sprite m x y pivot scale col region aw ah).indices =
       m.indices ++ [m.vertices.length, m.vertices.length + 1,
         m.vertices.length + 2, m.vertices.length + 2,
         m.vertices.length + 3, m.vertices.length]) ∧
    ((add_quad ⟨[], []⟩ (0,0) (1,0) (0,1) (1,1) COLOR_WHITE).vertices.map
        Vertex.uv).toFinset = {(0,0), (1,0), (1,1), (0,1)} ∧
    (add_quad ⟨[], []⟩ (0,0) (1,0) (0,1) (1,1) COLOR_WHITE).indices =
      [0, 1, 2, 2, 3, 0] := by
  have h0 : m.vertices.length % 2 ^ 32 = m.vertices.length :=
    Nat.mod_eq_of_lt (by omega)
  have h1 : (m.vertices.length + 1) % 2 ^ 32 = m.vertices.length + 1 :=
    Nat.mod_eq_of_lt (by omega)
  have h2 : (m.vertices.length + 2) % 2 ^ 32 = m.vertices.length + 2 :=
    Nat.mod_eq_of_lt (by omega)
  have h3 : (m.vertices.length + 3) % 2 ^ 32 = m.vertices.length + 3 :=
    Nat.mod_eq_of_lt (by omega)
  refine ⟨⟨?_, ?_, ?_, ?_⟩, by decide, by decide⟩
  · simp [add_quad]
  · simp only [add_quad, u32cast, h0, h1, h2, h3]
  · simp [add_sprite]
  · simp only [add_sprite, u32cast, h0, h1, h2, h3]

/-- Witness for C4: the `add_quad` index pattern on a concrete singleton mesh. -/
theorem add_quad_add_sprite_append_spec_witness :
    (add_quad ⟨[], []⟩ (0,0) (1,0) (0,1) (1,1) COLOR_WHITE).indices =
      [0, 1, 2, 2, 3, 0] :=
  (add_quad_add_sprite_append_spec ⟨[], []⟩ (0,0) (1,0) (0,1) (1,1) COLOR_WHITE
    0 0 ⟨0,0⟩ ⟨1,1⟩ ⟨0,0,1,1⟩ 1 1 (by decide)).2.2

/-- C5: `add_sprite` appends a quad whose UV rectangle is
`(region.x/aw, region.y/ah)`–`((region.x+region.w)/aw, (region.y+region.h)/ah)`,
whose top-left position is `(x - pivot.x*scale.x, y - pivot.y*scale.y)` and
whose width/height are `region.w*scale.x` / `region.h*scale.y`; the region
`(16,32,8,8)` on a 128×128 atlas yields the UV rectangle
`(0.125, 0.25)`–`(0.1875, 0.3125)`. -/
theorem add_sprite_uv_mapping
    (m : Mesh) (x y : F32) (pivot : Point2f) (scale : Vector2f) (col : Color)
    (region : SpriteRegion) (aw ah : Nat) (_hw : 0 < aw) (_hh : 0 < ah) :
    ((add_sprite m x y pivot scale col region aw ah).vertices =
      m.vertices ++
        [ ⟨(x - pivot.x * scale.x, y - pivot.y * scale.y, 0), col.data,
            ((region.x : F32) / aw, (region.y : F32) / ah)⟩
        , ⟨(x - pivot.x * scale.x + (region.w : F32) * scale.x,
              y - pivot.y * scale.y, 0), col.data,
            (((region.x : F32) + region.w) / aw, (region.y : F32) / ah)⟩
        , ⟨(x - pivot.x * scale.x + (region.w : F32) * scale.x,
              y - pivot.y * scale.y + (region.h : F32) * scale.y, 0), col.data,
            (((region.x : F32) + region.w) / aw,
              ((region.y : F32) + region.h) / ah)⟩
        , ⟨(x - pivot.x * scale.x,
              y - pivot.y * scale.y + (region.h : F32) * scale.y, 0), col.data,
            ((region.x : F32) / aw, ((region.y : F32) + region.h) / ah)⟩ ]) ∧
    ((add_sprite ⟨[], []⟩ 0 0 ⟨0,0⟩ ⟨1,1⟩ COLOR_WHITE ⟨16,32,8,8⟩ 128 128).vertices.map
        Vertex.uv) =
      [(0.125, 0.25), (0.1875, 0.25), (0.1875, 0.3125), (0.125, 0.3125)] := by
  constructor
  · simp only [add_sprite, div_add_div_same]
  · norm_num [add_sprite, COLOR_WHITE, u32cast]

/-- Witness for C5 on a concrete sprite: the claimed UV rectangle values. -/
theorem add_sprite_uv_mapping_witness :
    ((add_sprite ⟨[], []⟩ 0 0 ⟨0,0⟩ ⟨1,1⟩ COLOR_WHITE ⟨16,32,8,8⟩ 128 128).vertices.map
        Vertex.uv) =
      [(0.125, 0.25), (0.1875, 0.25), (0.1875, 0.3125), (0.125, 0.3125)] :=
  (add_sprite_uv_mapping ⟨[], []⟩ 0 0 ⟨0,0⟩ ⟨1,1⟩ COLOR_WHITE ⟨16,32,8,8⟩
    128 128 (by decide) (by decide)).2

/-- `update_buffer` (renderer.rs 1397–1420): maps the byte range
`[frame_idx * buffer_frame_size, + data_len)` of the buffer memory, copies the
payload bytes into it, flushes and unmaps. The memory is modelled as a byte
map `Nat → Nat` and the payload as its serialized byte list. -/
def update_buffer (buffer_memory : Nat → Nat) (frame_idx buffer_frame_size : Nat)
    (data : List Nat) : Nat → Nat :=
  let buffer_offset := frame_idx * buffer_frame_size
  fun i =>
    if buffer_offset ≤ i ∧ i < buffer_offset + data.length
    then data.getD (i - buffer_offset) 0
    else buffer_memory i

/-- C6 counterexample: with `frame_stride = 1` and a 2-byte payload, writing
frame-slot 0 (offset 0) mutates byte 1, which lies inside frame-slot 1's
region `[frame_stride, 2*frame_stride) = [1, 2)`: the claim fails for
payloads longer than `frame_stride`. -/
theorem update_buffer_crosses_slots_counterexample :
    1 * 1 ≤ 1 ∧ 1 < 2 * 1 ∧
      update_buffer (fun _ => 0) 0 1 [7, 7] 1 = 7 ∧
      (fun _ : Nat => (0 : Nat)) 1 = 0 := by
  refine ⟨by decide, by decide, ?_, rfl⟩
  simp [update_buffer]

/-- C6 (amended): for every payload of at most `frame_stride` bytes,
`update_buffer` writing into frame-slot 0's region (byte offset 0) never
mutates any byte of frame-slot 1's region `[frame_stride, 2*frame_stride)`. -/
theorem update_buffer_slot_isolation (memory : Nat → Nat) (frame_stride : Nat)
    (data : List Nat) (hlen : data.length ≤ frame_stride)
    (i : Nat) (h1 : frame_stride ≤ i) (h2 : i < 2 * frame_stride) :
    update_buffer memory 0 frame_stride data i = memory i := by
  have hcond : ¬ (0 * frame_stride ≤ i ∧ i < 0 * frame_stride + data.length) := by
    omega
  simp only [update_buffer]
  rw [if_neg hcond]

/-- Witness for C6's amended theorem at a concrete stride and payload. -/
theorem update_buffer_slot_isolation_witness :
    update_buffer (fun _ => 5) 0 2 [7, 7] 3 = 5 :=
  update_buffer_slot_isolation (fun _ => 5) 2 [7, 7] (by decide) 3 (by decide)
    (by decide)

/-- A memory type reported by the physical device: a bitmask of its
memory-property flags. -/
structure MemoryType where
  properties : Nat
deriving DecidableEq, Repr

/-- Buffer memory requirements reported by the device
(`get_buffer_requirements`). -/
structure MemRequirements where
  size : Nat
  type_mask : Nat
deriving DecidableEq, Repr

/-- Device-side operations performed by `create_buffer`, in call order. -/
inductive DeviceOp
  | queryMemoryProperties
  | createBuffer (len : Nat)
  | getBufferRequirements
  | allocateMemory (size : Nat)
  | bindBufferMemory
deriving DecidableEq, Repr

/-- The `find` over `memory_types.iter().enumerate()` in `create_buffer`:
first index whose bit is set in the requirement's type mask and whose property
flags contain all requested flags. -/
def find_memory_type_from (idx : Nat) (type_mask properties : Nat) :
    List MemoryType → Option Nat
  | [] => none
  | ty :: rest =>
    if type_mask &&& (1 <<< idx) ≠ 0 ∧ properties &&& ty.properties = properties
    then some idx
    else find_memory_type_from (idx + 1) type_mask properties rest

/-- `create_buffer` (renderer.rs 1274–1324): asserts `buffer_len ≠ 0`, then
creates the buffer, queries its requirements, selects a memory type, allocates
and binds. Returns the ordered device-operation trace and the result
(`none` models the `assert_ne!` panic / failed `expect`); a successful result
carries `(buffer length, selected memory type id)`. -/
def create_buffer (memory_types : List MemoryType) (req : MemRequirements)
    (properties : Nat) (buffer_len : Nat) :
    List DeviceOp × Option (Nat × Nat) :=
  if buffer_len = 0 then ([], none)
  else
    match find_memory_type_from 0 req.type_mask properties memory_types with
    | none =>
      ([.queryMemoryProperties, .createBuffer buffer_len,
        .getBufferRequirements], none)
    | some id =>
      ([.queryMemoryProperties, .createBuffer buffer_len,
        .getBufferRequirements, .allocateMemory req.size, .bindBufferMemory],
        some (buffer_len, id))

/-- C10: `create_buffer` with `buffer_len = 0` panics before performing any
device operation (empty trace, no result), and every successfully created
buffer has length at least 1. -/
theorem create_buffer_nonzero (memory_types : List MemoryType)
    (req : MemRequirements) (properties : Nat) :
    create_buffer memory_types req properties 0 = ([], none) ∧
    (∀ len ops buf,
      create_buffer memory_types req properties len = (ops, some buf) →
      buf.1 = len ∧ 1 ≤ buf.1) := by
  constructor
  · simp [create_buffer]
  · intro len ops buf h
    by_cases h0 : len = 0
    · subst h0
      simp [create_buffer] at h
    · rw [create_buffer, if_neg h0] at h
      rcases hf : find_memory_type_from 0 req.type_mask properties memory_types with
        _ | id
      · rw [hf] at h
        simp at h
      · rw [hf] at h
        have hb : buf = (len, id) := by
          have := congrArg Prod.snd h
          simpa using this.symm
        subst hb
        exact ⟨rfl, by omega⟩

/-- Witness for C10: a concrete successful `create_buffer` call yields a
buffer of positive length. -/
theorem create_buffer_nonzero_witness :
    create_buffer [⟨1⟩] ⟨16, 1⟩ 1 0 = ([], none) ∧ (1 : Nat) ≤ 8 :=
  ⟨(create_buffer_nonzero [⟨1⟩] ⟨16, 1⟩ 1).1,
    ((create_buffer_nonzero [⟨1⟩] ⟨16, 1⟩ 1).2 8
      [.queryMemoryProperties, .createBuffer 8, .getBufferRequirements,
        .allocateMemory 16, .bindBufferMemory] (8, 0) (by decide)).2⟩

/-- Association-list model of `HashMap`: lookup. -/
def alistGet {κ ν : Type} [DecidableEq κ] : List (κ × ν) → κ → Option ν
  | [], _ => none
  | (k0, v0) :: rest, k => if k0 = k then some v0 else alistGet rest k

/-- Association-list model of `HashMap`: insert, replacing any existing
binding for the key. -/
def alistInsert {κ ν : Type} [DecidableEq κ] : List (κ × ν) → κ → ν → List (κ × ν)
  | [], k, v => [(k, v)]
  | (k0, v0) :: rest, k, v =>
    if k0 = k then (k, v) :: rest else (k0, v0) :: alistInsert rest k v

theorem alistGet_insert_self {κ ν : Type} [DecidableEq κ]
    (l : List (κ × ν)) (k : κ) (v : ν) :
    alistGet (alistInsert l k v) k = some v := by
  induction l with
  | nil => simp [alistGet, alistInsert]
  | cons hd tl ih =>
    obtain ⟨k0, v0⟩ := hd
    by_cases h : k0 = k
    · simp [alistGet, alistInsert, h]
    · simp [alistGet, alistInsert, h, ih]

theorem alistGet_insert_ne {κ ν : Type} [DecidableEq κ]
    (l : List (κ × ν)) (k k' : κ) (v : ν) (h : k' ≠ k) :
    alistGet (alistInsert l k v) k' = alistGet l k' := by
  have h' : k ≠ k' := Ne.symm h
  induction l with
  | nil => simp [alistGet, alistInsert, h']
  | cons hd tl ih =>
    obtain ⟨k0, v0⟩ := hd
    by_cases h0 : k0 = k
    · subst h0
      simp [alistGet, alistInsert, h']
    · by_cases h1 : k0 = k'
      · simp [alistGet, alistInsert, h0, h1, h]
      · simp [alistGet, alistInsert, h0, h1, ih]

theorem mem_alistInsert_keys {κ ν : Type} [DecidableEq κ]
    (l : List (κ × ν)) (k x : κ) (v : ν) :
    x ∈ (alistInsert l k v).map Prod.fst ↔ x ∈ l.map Prod.fst ∨ x = k := by
  induction l with
  | nil => simp [alistInsert]
  | cons hd tl ih =>
    obtain ⟨k0, v0⟩ := hd
    by_cases h : k0 = k
    · subst h
      simp only [alistInsert, if_pos]
      simp only [List.map_cons, List.mem_cons]
      tauto
    · simp only [alistInsert, if_neg h, List.map_cons, List.mem_cons, ih]
      tauto

theorem alistInsert_keys_nodup {κ ν : Type} [DecidableEq κ]
    (l : List (κ × ν)) (k : κ) (v : ν)
    (h : (l.map Prod.fst).Nodup) :
    ((alistInsert l k v).map Prod.fst).Nodup := by
  induction l with
  | nil => simp [alistInsert]
  | cons hd tl ih =>
    obtain ⟨k0, v0⟩ := hd
    simp only [List.map_cons, List.nodup_cons] at h
    by_cases h0 : k0 = k
    · subst h0
      simp only [alistInsert, if_pos]
      simp only [List.map_cons, List.nodup_cons]
      exact h
    · simp only [alistInsert, if_neg h0, List.map_cons, List.nodup_cons]
      refine ⟨?_, ih h.2⟩
      rw [mem_alistInsert_keys]
      rintro (hmem | rfl)
      · exact h.1 hmem
      · exact h0 rfl

theorem alistGet_mem_keys {κ ν : Type} [DecidableEq κ]
    (l : List (κ × ν)) (k : κ) (v : ν) (h : alistGet l k = some v) :
    k ∈ l.map Prod.fst := by
  induction l with
  | nil => simp [alistGet] at h
  | cons hd tl ih =>
    obtain ⟨k0, v0⟩ := hd
    by_cases h0 : k0 = k
    · simp [h0]
    · simp only [alistGet, if_neg h0] at h
      simp [ih h]

/-- `RenderBatch` (renderer.rs 137–151). GPU-owned members (descriptor set,
vertex/index buffer with their memory) are modelled as numeric handles;
`tex_info` is the `(texture id, width, height)` triple snapshotted at batch
creation. -/
structure RenderBatch where
  transparency : Transparency
  layer : Fin 256
  shader_program_id : Fin 65536
  tex_info : Fin 65536 × Nat × Nat
  descriptor_set : Nat
  vertex_buffer : Nat
  index_buffer : Nat
  batch_mesh : Mesh
deriving DecidableEq, Repr

/-- `RenderBatch::tex_id`. -/
def RenderBatch.tex_id (b : RenderBatch) : Fin 65536 := b.tex_info.1

/-- `RenderBatch::key`: the key generated from the batch's own fields. -/
def RenderBatch.key (b : RenderBatch) : Nat :=
  gen_key b.transparency b.layer b.shader_program_id b.tex_info.1

/-- `RenderBatch::clear`: clears the batch mesh. -/
def RenderBatch.clear (b : RenderBatch) : RenderBatch :=
  { b with batch_mesh := b.batch_mesh.clear }

/-- `RenderBatch::process_command` (renderer.rs 225–257): dispatch on the
payload into the geometry builder; sprites use the batch's snapshotted
texture dimensions. -/
def RenderBatch.process_command (b : RenderBatch) (c : RenderCommand) : RenderBatch :=
  match c.data with
  | .Quad bl br tl tr color =>
    { b with batch_mesh := add_quad b.batch_mesh bl br tl tr color }
  | .Sprite x y pivot scale color region =>
    { b with batch_mesh :=
        (add_sprite b.batch_mesh x y pivot scale color region
          b.tex_info.2.1 b.tex_info.2.2) }

/-- The mesh-level effect of `RenderBatch::process_command`. -/
def mesh_step (texw texh : Nat) (m : Mesh) (c : RenderCommand) : Mesh :=
  match c.data with
  | .Quad bl br tl tr color => add_quad m bl br tl tr color
  | .Sprite x y pivot scale color region =>
    add_sprite m x y pivot scale color region texw texh

theorem RenderBatch.process_command_eq (b : RenderBatch) (c : RenderCommand) :
    b.process_command c =
      { b with batch_mesh :=
          mesh_step b.tex_info.2.1 b.tex_info.2.2 b.batch_mesh c } := by
  cases hc : c.data <;> simp [RenderBatch.process_command, mesh_step, hc]

theorem RenderBatch.key_clear (b : RenderBatch) : b.clear.key = b.key := rfl

theorem RenderBatch.key_process_command (b : RenderBatch) (c : RenderCommand) :
    (b.process_command c).key = b.key := by
  rw [RenderBatch.process_command_eq]; rfl

/-- `GpuTexture` (renderer.rs 300–309): the GPU image, memory, view and
sampler handles plus dimensions; `content` records the bytes uploaded into
the GPU image. -/
structure GpuTexture where
  id : Fin 65536
  image : Nat
  memory : Nat
  image_view : Nat
  sampler : Nat
  w : Nat
  h : Nat
  content : List Nat
deriving DecidableEq, Repr

/-- The bytes that reach the GPU image in `create_gpu_texture`: for each row
`y < h`, the `w*4` pixel bytes `pixels[y*w*4 .. (y+1)*w*4]` (the staging
buffer's row-pitch padding is skipped by the buffer-to-image copy). -/
def upload_rows (pixels : List Nat) (w : Nat) : Nat → List Nat
  | 0 => []
  | h + 1 => upload_rows pixels w h ++ (pixels.drop (h * w * 4)).take (w * 4)

/-- The renderer state relevant to batching, texture registration and
resource accounting (renderer.rs 357–386). GPU allocations are modelled by a
fresh-handle counter plus effect counters: `descriptor_allocs` counts
`allocate_set` calls, `descriptor_writes` counts `write_descriptor_sets`
calls, `buffer_allocs` counts `create_buffer` calls, and `released` logs
destroyed resource handles in destruction order. `shader_programs` keeps the
registered program ids. -/
structure Renderer where
  shader_programs : List (Fin 65536)
  textures : List (Fin 65536 × GpuTexture)
  batches : List (Nat × RenderBatch)
  frames_in_flight : Nat
  current_frame : Nat
  swapchain_generation : Nat
  next_handle : Nat
  released : List Nat
  descriptor_allocs : Nat
  descriptor_writes : Nat
  buffer_allocs : Nat
deriving DecidableEq, Repr

/-- `Renderer::create_render_batch` (renderer.rs 626–717): if a batch with
the generated key is live, clear its mesh and return the key; otherwise fail
(`none`, the panic) when the shader program id is unknown, else allocate a
descriptor set, create the vertex and index buffers, snapshot the texture's
dimensions (0×0 when the texture id is unregistered), build the batch, write
its descriptor set once, and cache it under its own key. -/
def create_render_batch (r : Renderer) (transparency : Transparency)
    (layer : Fin 256) (shader_program_id : Fin 65536) (tex_id : Fin 65536) :
    Option (Renderer × Nat) :=
  let key := gen_key transparency layer shader_program_id tex_id
  match alistGet r.batches key with
  | some batch =>
    some ({ r with batches := alistInsert r.batches key batch.clear }, key)
  | none =>
    if shader_program_id ∈ r.shader_programs then
      let descriptor_set := r.next_handle
      let vertex_buffer := r.next_handle + 1
      let index_buffer := r.next_handle + 2
      let tex_info : Fin 65536 × Nat × Nat :=
        match alistGet r.textures tex_id with
        | some tex => (tex_id, tex.w, tex.h)
        | none => (tex_id, 0, 0)
      let batch : RenderBatch :=
        ⟨transparency, layer, shader_program_id, tex_info, descriptor_set,
          vertex_buffer, index_buffer, ⟨[], []⟩⟩
      some ({ r with
        batches := alistInsert r.batches batch.key batch,
        next_handle := r.next_handle + 3,
        descriptor_allocs := r.descriptor_allocs + 1,
        descriptor_writes := r.descriptor_writes + 1,
        buffer_allocs := r.buffer_allocs + 2 }, batch.key)
    else none

/-- `Renderer::create_gpu_texture` (renderer.rs 1079–1237): create the image,
its memory, view and sampler; create a staging buffer and a copy fence, copy
the pixel rows into the staging buffer at the aligned row pitch, record and
submit the two-barrier transfer, wait on the fence, destroy the fence and the
staging buffer; finally register the texture under `id`, displacing (and
thereby dropping, which releases image, view, sampler and memory of) any
previous texture with that id. -/
def create_gpu_texture (r : Renderer) (id : Fin 65536) (w h : Nat)
    (pixels : List Nat) : Renderer :=
  let image := r.next_handle
  let memory := r.next_handle + 1
  let image_view := r.next_handle + 2
  let sampler := r.next_handle + 3
  let staging := r.next_handle + 4
  let fence := r.next_handle + 5
  let tex : GpuTexture :=
    ⟨id, image, memory, image_view, sampler, w, h, upload_rows pixels w h⟩
  let released_old : List Nat :=
    match alistGet r.textures id with
    | some old => [old.image, old.image_view, old.sampler, old.memory]
    | none => []
  { r with
    textures := alistInsert r.textures id tex,
    next_handle := r.next_handle + 6,
    buffer_allocs := r.buffer_allocs + 1,
    released := r.released ++ [fence, staging] ++ released_old }

theorem take_add_split {α : Type} (l : List α) (a b : Nat) :
    l.take (a + b) = l.take a ++ (l.drop a).take b := by
  rw [List.take_drop]
  conv_lhs => rw [← List.take_append_drop a (l.take (a + b))]
  congr 1
  rw [List.take_take]
  congr 1
  exact Nat.min_eq_left (Nat.le_add_right a b)

theorem upload_rows_eq_take (p : List Nat) (w : Nat) :
    ∀ h : Nat, upload_rows p w h = p.take (h * w * 4)
  | 0 => by simp [upload_rows]
  | h + 1 => by
    rw [upload_rows, upload_rows_eq_take p w h, ← take_add_split]
    congr 1
    ring

theorem upload_rows_eq_self (p : List Nat) (w h : Nat)
    (hp : p.length = h * w * 4) : upload_rows p w h = p := by
  rw [upload_rows_eq_take, ← hp, List.take_length]

/-- Invariant: every live batch is stored under the key generated from its
own fields (batches are cached under `batch.key()`). -/
def BatchesWf (l : List (Nat × RenderBatch)) : Prop :=
  ∀ k b, alistGet l k = some b → b.key = k

theorem BatchesWf_insert {l : List (Nat × RenderBatch)} (hwf : BatchesWf l)
    {k : Nat} {b : RenderBatch} (hb : b.key = k) :
    BatchesWf (alistInsert l k b) := by
  intro k' b' h
  by_cases hk : k' = k
  · subst hk
    rw [alistGet_insert_self] at h
    cases h
    exact hb
  · rw [alistGet_insert_ne _ _ _ _ hk] at h
    exact hwf k' b' h

theorem BatchesWf_nil : BatchesWf [] := by
  intro k b h
  simp [alistGet] at h

/-- C3: `create_render_batch` on a key that already has a live batch returns
that key and only clears that batch's mesh (no second batch, no allocation,
no descriptor write — the post-state is exactly the old state with that one
binding replaced by its cleared batch); on first creation of a key it
allocates the descriptor set, writes it once, creates the two buffers, and
caches a batch with an empty mesh; in either case the batch keys stay
duplicate-free, so a key maps to at most one live batch. -/
theorem create_render_batch_spec (r : Renderer) (t : Transparency)
    (layer : Fin 256) (prog tex : Fin 65536)
    (hwf : BatchesWf r.batches) (hnd : (r.batches.map Prod.fst).Nodup) :
    (∀ b, alistGet r.batches (gen_key t layer prog tex) = some b →
      create_render_batch r t layer prog tex =
        some ({ r with batches :=
            alistInsert r.batches (gen_key t layer prog tex) b.clear },
          gen_key t layer prog tex)) ∧
    (alistGet r.batches (gen_key t layer prog tex) = none →
      prog ∈ r.shader_programs →
      ∃ r', create_render_batch r t layer prog tex =
          some (r', gen_key t layer prog tex) ∧
        r'.descriptor_allocs = r.descriptor_allocs + 1 ∧
        r'.descriptor_writes = r.descriptor_writes + 1 ∧
        r'.buffer_allocs = r.buffer_allocs + 2 ∧
        ∃ b, alistGet r'.batches (gen_key t layer prog tex) = some b ∧
          b.batch_mesh = ⟨[], []⟩) ∧
    (∀ r' k, create_render_batch r t layer prog tex = some (r', k) →
      ((r'.batches.map Prod.fst).Nodup ∧ BatchesWf r'.batches)) := by
  refine ⟨?_, ?_, ?_⟩
  · intro b hb
    simp only [create_render_batch, hb]
  · intro hb hp
    rcases htex : alistGet r.textures tex with _ | tx
    · refine ⟨{ r with
          batches := alistInsert r.batches (gen_key t layer prog tex)
            ⟨t, layer, prog, (tex, 0, 0), r.next_handle, r.next_handle + 1,
              r.next_handle + 2, ⟨[], []⟩⟩,
          next_handle := r.next_handle + 3,
          descriptor_allocs := r.descriptor_allocs + 1,
          descriptor_writes := r.descriptor_writes + 1,
          buffer_allocs := r.buffer_allocs + 2 }, ?_, rfl, rfl, rfl,
        ⟨_, alistGet_insert_self _ _ _, rfl⟩⟩
      simp only [create_render_batch, hb, if_pos hp, htex]
      rfl
    · refine ⟨{ r with
          batches := alistInsert r.batches (gen_key t layer prog tex)
            ⟨t, layer, prog, (tex, tx.w, tx.h), r.next_handle,
              r.next_handle + 1, r.next_handle + 2, ⟨[], []⟩⟩,
          next_handle := r.next_handle + 3,
          descriptor_allocs := r.descriptor_allocs + 1,
          descriptor_writes := r.descriptor_writes + 1,
          buffer_allocs := r.buffer_allocs + 2 }, ?_, rfl, rfl, rfl,
        ⟨_, alistGet_insert_self _ _ _, rfl⟩⟩
      simp only [create_render_batch, hb, if_pos hp, htex]
      rfl
  · intro r' k h
    rcases hb : alistGet r.batches (gen_key t layer prog tex) with _ | b
    · by_cases hp : prog ∈ r.shader_programs
      · rcases htex : alistGet r.textures tex with _ | tx <;>
        · simp only [create_render_batch, hb, if_pos hp, htex] at h
          cases h
          exact ⟨alistInsert_keys_nodup _ _ _ hnd,
            BatchesWf_insert hwf rfl⟩
      · simp only [create_render_batch, hb, if_neg hp] at h
        exact Option.noConfusion h
    · simp only [create_render_batch, hb] at h
      cases h
      refine ⟨alistInsert_keys_nodup _ _ _ hnd, BatchesWf_insert hwf ?_⟩
      rw [RenderBatch.key_clear]
      exact hwf _ _ hb

/-- A minimal concrete renderer: one registered shader program, no textures,
no batches. -/
def testRenderer : Renderer :=
  ⟨[0], [], [], 2, 0, 0, 0, [], 0, 0, 0⟩

/-- Witness for C3: first creation of a key on a concrete renderer allocates
and writes the descriptor set once and leaves an empty-mesh batch. -/
theorem create_render_batch_spec_witness :
    ∃ r', create_render_batch testRenderer .Opaque 0 0 0 =
        some (r', gen_key .Opaque 0 0 0) ∧
      r'.descriptor_allocs = testRenderer.descriptor_allocs + 1 ∧
      r'.descriptor_writes = testRenderer.descriptor_writes + 1 ∧
      r'.buffer_allocs = testRenderer.buffer_allocs + 2 ∧
      ∃ b, alistGet r'.batches (gen_key .Opaque 0 0 0) = some b ∧
        b.batch_mesh = ⟨[], []⟩ :=
  (create_render_batch_spec testRenderer .Opaque 0 0 0 BatchesWf_nil
    (by simp [testRenderer])).2.1 rfl (by decide)

/-- C8: registering a texture twice under one id leaves exactly one live
texture under that id, carrying the second call's width, height and pixel
content; the first call's GPU resources (image, view, sampler, memory) are
in the released log after the old texture is displaced. -/
theorem create_gpu_texture_last_write_wins (r : Renderer) (id : Fin 65536)
    (w1 h1 w2 h2 : Nat) (p1 p2 : List Nat)
    (hnd : (r.textures.map Prod.fst).Nodup)
    (hp2 : p2.length = h2 * w2 * 4) :
    ∃ t, alistGet (create_gpu_texture (create_gpu_texture r id w1 h1 p1) id
        w2 h2 p2).textures id = some t ∧
      t.w = w2 ∧ t.h = h2 ∧ t.content = p2 ∧
      ((create_gpu_texture (create_gpu_texture r id w1 h1 p1) id
          w2 h2 p2).textures.map Prod.fst).count id = 1 ∧
      ∀ t1, alistGet (create_gpu_texture r id w1 h1 p1).textures id = some t1 →
        t1.image ∈ (create_gpu_texture (create_gpu_texture r id w1 h1 p1) id
            w2 h2 p2).released ∧
        t1.image_view ∈ (create_gpu_texture (create_gpu_texture r id w1 h1 p1)
            id w2 h2 p2).released ∧
        t1.sampler ∈ (create_gpu_texture (create_gpu_texture r id w1 h1 p1)
            id w2 h2 p2).released ∧
        t1.memory ∈ (create_gpu_texture (create_gpu_texture r id w1 h1 p1)
            id w2 h2 p2).released := by
  have f1 : alistGet (create_gpu_texture r id w1 h1 p1).textures id =
      some ⟨id, r.next_handle, r.next_handle + 1, r.next_handle + 2,
        r.next_handle + 3, w1, h1, upload_rows p1 w1 h1⟩ := by
    simp only [create_gpu_texture]
    exact alistGet_insert_self _ _ _
  have f2 : alistGet (create_gpu_texture (create_gpu_texture r id w1 h1 p1) id
      w2 h2 p2).textures id =
      some ⟨id, (create_gpu_texture r id w1 h1 p1).next_handle,
        (create_gpu_texture r id w1 h1 p1).next_handle + 1,
        (create_gpu_texture r id w1 h1 p1).next_handle + 2,
        (create_gpu_texture r id w1 h1 p1).next_handle + 3, w2, h2,
        upload_rows p2 w2 h2⟩ := by
    conv_lhs => rw [show create_gpu_texture (create_gpu_texture r id w1 h1 p1)
      id w2 h2 p2 = create_gpu_texture (create_gpu_texture r id w1 h1 p1)
      id w2 h2 p2 from rfl]
    simp only [create_gpu_texture]
    exact alistGet_insert_self _ _ _
  refine ⟨_, f2, rfl, rfl, upload_rows_eq_self p2 w2 h2 hp2, ?_, ?_⟩
  · have hnd1 : ((create_gpu_texture r id w1 h1 p1).textures.map
        Prod.fst).Nodup := by
      simp only [create_gpu_texture]
      exact alistInsert_keys_nodup _ _ _ hnd
    have hnd2 : ((create_gpu_texture (create_gpu_texture r id w1 h1 p1) id
        w2 h2 p2).textures.map Prod.fst).Nodup := by
      simp only [create_gpu_texture]
      exact alistInsert_keys_nodup _ _ _ hnd1
    exact List.count_eq_one_of_mem hnd2 (alistGet_mem_keys _ _ _ f2)
  · intro t1 ht1
    rw [f1] at ht1
    cases ht1
    refine ⟨?_, ?_, ?_, ?_⟩ <;>
      simp [create_gpu_texture, alistGet_insert_self]

/-- Witness for C8 on a concrete renderer: a second 1×1 registration under
id 3 wins and the first registration's resources are released. -/
theorem create_gpu_texture_last_write_wins_witness :
    ∃ t, alistGet (create_gpu_texture (create_gpu_texture testRenderer 3 1 1
        [0, 0, 0, 0]) 3 1 1 [9, 9, 9, 9]).textures 3 = some t ∧
      t.w = 1 ∧ t.h = 1 ∧ t.content = [9, 9, 9, 9] ∧
      ((create_gpu_texture (create_gpu_texture testRenderer 3 1 1
          [0, 0, 0, 0]) 3 1 1 [9, 9, 9, 9]).textures.map Prod.fst).count 3 = 1 ∧
      ∀ t1, alistGet (create_gpu_texture testRenderer 3 1 1
          [0, 0, 0, 0]).textures 3 = some t1 →
        t1.image ∈ (create_gpu_texture (create_gpu_texture testRenderer 3 1 1
            [0, 0, 0, 0]) 3 1 1 [9, 9, 9, 9]).released ∧
        t1.image_view ∈ (create_gpu_texture (create_gpu_texture testRenderer
            3 1 1 [0, 0, 0, 0]) 3 1 1 [9, 9, 9, 9]).released ∧
        t1.sampler ∈ (create_gpu_texture (create_gpu_texture testRenderer
            3 1 1 [0, 0, 0, 0]) 3 1 1 [9, 9, 9, 9]).released ∧
        t1.memory ∈ (create_gpu_texture (create_gpu_texture testRenderer
            3 1 1 [0, 0, 0, 0]) 3 1 1 [9, 9, 9, 9]).released :=
  create_gpu_texture_last_write_wins testRenderer 3 1 1 1 1 [0, 0, 0, 0]
    [9, 9, 9, 9] (by simp [testRenderer]) (by decide)

/-- Result of `surface.acquire_image` in `render`. -/
inductive AcquireResult
  | ok (image : Nat)
  | err
deriving DecidableEq, Repr

/-- Result of `present_surface` in `render`. -/
inductive PresentResult
  | ok
  | err
deriving DecidableEq, Repr

/-- Observable frame effects of one `render` call: swapchain rebuilds,
whether a command buffer was recorded and submitted, whether a present was
attempted, and how many uniform-region / batch-buffer-region writes and
indexed draw calls were issued. -/
structure FrameEffects where
  swapchain_rebuilds : Nat
  command_buffer_recorded : Bool
  submitted : Bool
  present_attempted : Bool
  uniform_writes : Nat
  batch_buffer_writes : Nat
  draw_calls : Nat
deriving DecidableEq, Repr

/-- `Renderer::rebuild_swapchain` (renderer.rs 1052–1077): reconfigure the
swapchain from the current surface capabilities and dimensions; modelled as
bumping the swapchain generation, all other state untouched. -/
def rebuild_swapchain (r : Renderer) : Renderer :=
  { r with swapchain_generation := r.swapchain_generation + 1 }

/-- `Renderer::render_batch` (renderer.rs 988–1050), state effect: take the
batch's mesh (leaving a fresh empty one) and upload its vertex and index
data into the frame-indexed regions of the batch's buffers; `none` models
the `unwrap` panic on a key with no live batch. -/
def render_batch (r : Renderer) (batch_key : Nat) : Option Renderer :=
  match alistGet r.batches batch_key with
  | none => none
  | some b =>
    some { r with batches :=
      (alistInsert r.batches batch_key { b with batch_mesh := ⟨[], []⟩ }) }

/-- The per-batch loop inside `render`. -/
def render_batches (r : Renderer) : List Nat → Option Renderer
  | [] => some r
  | k :: rest =>
    match render_batch r k with
    | none => none
    | some r1 => render_batches r1 rest

/-- `Renderer::render` (renderer.rs 858–986): acquire a swapchain image — on
failure rebuild the swapchain and return immediately; otherwise wait on and
reset this slot's fence, write the uniform region, record the command buffer
(render pass, one mesh upload + indexed draw per batch key), submit with the
frame fence, present (rebuilding the swapchain on a present error), and
advance the frame counter. The acquire and present outcomes are inputs from
the environment. -/
def render (r : Renderer) (acquire : AcquireResult) (present : PresentResult)
    (batch_keys : List Nat) : Option (Renderer × FrameEffects) :=
  match acquire with
  | .err => some (rebuild_swapchain r, ⟨1, false, false, false, 0, 0, 0⟩)
  | .ok _ =>
    match render_batches r batch_keys with
    | none => none
    | some r1 =>
      let r2 := { r1 with current_frame := r1.current_frame + 1 }
      let fx : FrameEffects :=
        ⟨(match present with | .err => 1 | .ok => 0), true, true, true, 1,
          2 * batch_keys.length, batch_keys.length⟩
      match present with
      | .err => some (rebuild_swapchain r2, fx)
      | .ok => some (r2, fx)

theorem render_batches_ok : ∀ (l : List Nat) (r : Renderer),
    (∀ k ∈ l, ∃ b, alistGet r.batches k = some b) →
    ∃ r1, render_batches r l = some r1
  | [], r, _ => ⟨r, rfl⟩
  | k :: rest, r, hlive => by
    obtain ⟨b, hb⟩ := hlive k (List.mem_cons_self k rest)
    have hrest : ∀ k' ∈ rest, ∃ b',
        alistGet ({ r with batches :=
          (alistInsert r.batches k { b with batch_mesh := ⟨[], []⟩ }) } :
            Renderer).batches k' = some b' := by
      intro k' hk'
      by_cases hkk : k' = k
      · subst hkk
        exact ⟨_, alistGet_insert_self _ _ _⟩
      · obtain ⟨b', hb'⟩ := hlive k' (List.mem_cons_of_mem _ hk')
        refine ⟨b', ?_⟩
        show alistGet
          (alistInsert r.batches k { b with batch_mesh := ⟨[], []⟩ }) k' =
            some b'
        rw [alistGet_insert_ne _ _ _ _ hkk]
        exact hb'
    obtain ⟨r1, h1⟩ := render_batches_ok rest _ hrest
    exact ⟨r1, by simp only [render_batches, render_batch, hb]; exact h1⟩

/-- C7: when swapchain image acquisition fails, `render` rebuilds the
swapchain and returns immediately: no command buffer is recorded, nothing is
submitted or presented, no batch-buffer or uniform region is written, the
batches, textures and frame counter are untouched, and the dropped frame is
not retried — the next call with a successful acquire records, submits and
presents normally. -/
theorem render_acquire_failure_aborts (r : Renderer)
    (present next_present : PresentResult) (batch_keys next_keys : List Nat)
    (hlive : ∀ k ∈ next_keys, ∃ b, alistGet r.batches k = some b) :
    render r .err present batch_keys =
      some (rebuild_swapchain r, ⟨1, false, false, false, 0, 0, 0⟩) ∧
    (rebuild_swapchain r).batches = r.batches ∧
    (rebuild_swapchain r).current_frame = r.current_frame ∧
    (rebuild_swapchain r).textures = r.textures ∧
    ∃ r2 fx, render (rebuild_swapchain r) (.ok 0) next_present next_keys =
        some (r2, fx) ∧
      fx.command_buffer_recorded = true ∧ fx.submitted = true ∧
      fx.present_attempted = true ∧ fx.uniform_writes = 1 ∧
      fx.draw_calls = next_keys.length := by
  refine ⟨rfl, rfl, rfl, rfl, ?_⟩
  obtain ⟨r1, h1⟩ := render_batches_ok next_keys (rebuild_swapchain r) hlive
  cases next_present
  · exact ⟨{ r1 with current_frame := r1.current_frame + 1 },
      ⟨0, true, true, true, 1, 2 * next_keys.length, next_keys.length⟩,
      by simp only [render, h1], rfl, rfl, rfl, rfl, rfl⟩
  · exact ⟨rebuild_swapchain { r1 with current_frame := r1.current_frame + 1 },
      ⟨1, true, true, true, 1, 2 * next_keys.length, next_keys.length⟩,
      by simp only [render, h1], rfl, rfl, rfl, rfl, rfl⟩

/-- Witness for C7 on a concrete renderer with no batches. -/
theorem render_acquire_failure_aborts_witness :
    render testRenderer .err .ok [] =
      some (rebuild_swapchain testRenderer, ⟨1, false, false, false, 0, 0, 0⟩) ∧
    (rebuild_swapchain testRenderer).batches = testRenderer.batches ∧
    (rebuild_swapchain testRenderer).current_frame =
      testRenderer.current_frame ∧
    (rebuild_swapchain testRenderer).textures = testRenderer.textures ∧
    ∃ r2 fx, render (rebuild_swapchain testRenderer) (.ok 0) .ok [] =
        some (r2, fx) ∧
      fx.command_buffer_recorded = true ∧ fx.submitted = true ∧
      fx.present_attempted = true ∧ fx.uniform_writes = 1 ∧
      fx.draw_calls = ([] : List Nat).length :=
  render_acquire_failure_aborts testRenderer .ok .ok [] []
    (by intro k hk; cases hk)

/-- The comparator of `commands.sort_by(|a, b| a.key().cmp(&b.key()))`:
Rust's `sort_by` is a stable sort, modelled by `List.mergeSort` (also
stable). -/
def cmdLE (a b : RenderCommand) : Bool := a.key ≤ b.key

theorem cmdLE_trans (a b c : RenderCommand) :
    cmdLE a b → cmdLE b c → cmdLE a c := by
  simp only [cmdLE, decide_eq_true_eq]
  omega

theorem cmdLE_total (a b : RenderCommand) : cmdLE a b || cmdLE b a := by
  simp only [cmdLE, Bool.or_eq_true, decide_eq_true_eq]
  omega

theorem RenderCommand.key_def (c : RenderCommand) :
    c.key = gen_key c.transparency c.layer c.shader_program_id c.tex_id := rfl

theorem gen_key_inj (t1 t2 : Transparency) (l1 l2 : Fin 256)
    (p1 p2 x1 x2 : Fin 65536)
    (h : gen_key t1 l1 p1 x1 = gen_key t2 l2 p2 x2) :
    t1 = t2 ∧ l1 = l2 ∧ p1 = p2 ∧ x1 = x2 := by
  have hl1 := l1.isLt
  have hl2 := l2.isLt
  have hp1 := p1.isLt
  have hp2 := p2.isLt
  have hx1 := x1.isLt
  have hx2 := x2.isLt
  simp only [gen_key] at h
  cases t1 <;> cases t2 <;> simp only [Transparency.toNat] at h
  · exact ⟨rfl, Fin.ext (by omega), Fin.ext (by omega), Fin.ext (by omega)⟩
  · exact absurd h (by omega)
  · exact absurd h (by omega)
  · exact ⟨rfl, Fin.ext (by omega), Fin.ext (by omega), Fin.ext (by omega)⟩

/-- The flush comparison in `process_commands` tests the four fields; this is
equivalent to comparing keys. -/
theorem fields_eq_iff_key_eq (b : RenderBatch) (c : RenderCommand) :
    (b.transparency = c.transparency ∧ b.layer = c.layer ∧
      b.shader_program_id = c.shader_program_id ∧ b.tex_id = c.tex_id) ↔
    b.key = c.key := by
  constructor
  · rintro ⟨h1, h2, h3, h4⟩
    rw [RenderBatch.key, RenderCommand.key_def, h1, h2, h3]
    rw [show b.tex_info.1 = b.tex_id from rfl, h4]
  · intro h
    rw [RenderBatch.key, RenderCommand.key_def] at h
    obtain ⟨h1, h2, h3, h4⟩ := gen_key_inj _ _ _ _ _ _ _ _ h
    exact ⟨h1, h2, h3, h4⟩

/-- The state of the batching loop in `process_commands`: the renderer, the
output key list, and the key of the currently open batch (the
`Option<&mut RenderBatch>` cursor, represented by the key it points at). -/
structure LoopState where
  r : Renderer
  batch_keys : List Nat
  cur : Option Nat

/-- The "flush the current batch if we are encountering new data" block of
the loop (renderer.rs 803–830): if any of the four fields of the open
batch differs from the command's, push the open batch's key and close it.
(The cursor always points at a live batch; the dead-cursor branch is
unreachable and leaves the state unchanged.) -/
def step_flush (ls : LoopState) (c : RenderCommand) : LoopState :=
  match ls.cur with
  | none => ls
  | some cur_key =>
    match alistGet ls.r.batches cur_key with
    | none => ls
    | some b =>
      if b.transparency ≠ c.transparency ∨ b.layer ≠ c.layer ∨
          b.shader_program_id ≠ c.shader_program_id ∨ b.tex_id ≠ c.tex_id
      then { ls with batch_keys := ls.batch_keys ++ [b.key], cur := none }
      else ls

/-- One iteration of the loop body (renderer.rs 797–848): flush, then open or
reuse a batch for the command's key when no batch is open (`none` models the
`unwrap` panics), then dispatch the command's payload into the open batch. -/
def process_step (ls : LoopState) (c : RenderCommand) : Option LoopState :=
  let ls1 := step_flush ls c
  match ls1.cur with
  | some cur_key =>
    match alistGet ls1.r.batches cur_key with
    | none => none
    | some b =>
      some { ls1 with r := { ls1.r with batches :=
        (alistInsert ls1.r.batches cur_key (b.process_command c)) } }
  | none =>
    match create_render_batch ls1.r c.transparency c.layer
        c.shader_program_id c.tex_id with
    | none => none
    | some (r1, key) =>
      match alistGet r1.batches key with
      | none => none
      | some b =>
        some ⟨{ r1 with batches :=
          (alistInsert r1.batches key (b.process_command c)) },
          ls1.batch_keys, some key⟩

/-- The loop over the sorted command list. -/
def process_list : LoopState → List RenderCommand → Option LoopState
  | ls, [] => some ls
  | ls, c :: rest =>
    match process_step ls c with
    | none => none
    | some ls1 => process_list ls1 rest

/-- `Renderer::process_commands` (renderer.rs 790–856): stable-sort the
commands by key, run the batching loop, and flush the final open batch. -/
def process_commands (r : Renderer) (commands : List RenderCommand) :
    Option (Renderer × List Nat) :=
  match process_list ⟨r, [], none⟩ (commands.mergeSort cmdLE) with
  | none => none
  | some ls =>
    match ls.cur with
    | none => some (ls.r, ls.batch_keys)
    | some cur_key =>
      match alistGet ls.r.batches cur_key with
      | none => none
      | some b => some (ls.r, ls.batch_keys ++ [b.key])

theorem step_flush_of_cur_none {ls : LoopState} {c : RenderCommand}
    (hcur : ls.cur = none) : step_flush ls c = ls := by
  simp only [step_flush, hcur]

theorem step_flush_stay {ls : LoopState} {c : RenderCommand} {k0 : Nat}
    {b : RenderBatch} (hcur : ls.cur = some k0)
    (hb : alistGet ls.r.batches k0 = some b) (heq : b.key = c.key) :
    step_flush ls c = ls := by
  have hcond : ¬ (b.transparency ≠ c.transparency ∨ b.layer ≠ c.layer ∨
      b.shader_program_id ≠ c.shader_program_id ∨ b.tex_id ≠ c.tex_id) := by
    push_neg
    exact (fields_eq_iff_key_eq b c).mpr heq
  simp only [step_flush, hcur, hb]
  rw [if_neg hcond]

theorem step_flush_trigger {ls : LoopState} {c : RenderCommand} {k0 : Nat}
    {b : RenderBatch} (hcur : ls.cur = some k0)
    (hb : alistGet ls.r.batches k0 = some b) (hne : b.key ≠ c.key) :
    step_flush ls c = ⟨ls.r, ls.batch_keys ++ [b.key], none⟩ := by
  have hcond : b.transparency ≠ c.transparency ∨ b.layer ≠ c.layer ∨
      b.shader_program_id ≠ c.shader_program_id ∨ b.tex_id ≠ c.tex_id := by
    by_contra hno
    push_neg at hno
    exact hne ((fields_eq_iff_key_eq b c).mp hno)
  simp only [step_flush, hcur, hb]
  rw [if_pos hcond]

theorem create_render_batch_reuse {r : Renderer} {t : Transparency}
    {layer : Fin 256} {prog tex : Fin 65536} {b : RenderBatch}
    (hb : alistGet r.batches (gen_key t layer prog tex) = some b) :
    create_render_batch r t layer prog tex =
      some ({ r with batches :=
        (alistInsert r.batches (gen_key t layer prog tex) b.clear) },
        gen_key t layer prog tex) := by
  simp only [create_render_batch, hb]

theorem create_render_batch_fresh {r : Renderer} {t : Transparency}
    {layer : Fin 256} {prog tex : Fin 65536}
    (hb : alistGet r.batches (gen_key t layer prog tex) = none)
    (hp : prog ∈ r.shader_programs) :
    ∃ nb : RenderBatch,
      create_render_batch r t layer prog tex =
        some ({ r with
          batches := (alistInsert r.batches (gen_key t layer prog tex) nb),
          next_handle := r.next_handle + 3,
          descriptor_allocs := r.descriptor_allocs + 1,
          descriptor_writes := r.descriptor_writes + 1,
          buffer_allocs := r.buffer_allocs + 2 }, gen_key t layer prog tex) ∧
      nb.key = gen_key t layer prog tex ∧ nb.batch_mesh = ⟨[], []⟩ := by
  rcases htex : alistGet r.textures tex with _ | tx
  · refine ⟨⟨t, layer, prog, (tex, 0, 0), r.next_handle, r.next_handle + 1,
      r.next_handle + 2, ⟨[], []⟩⟩, ?_, rfl, rfl⟩
    simp only [create_render_batch, hb, if_pos hp, htex]
    rfl
  · refine ⟨⟨t, layer, prog, (tex, tx.w, tx.h), r.next_handle,
      r.next_handle + 1, r.next_handle + 2, ⟨[], []⟩⟩, ?_, rfl, rfl⟩
    simp only [create_render_batch, hb, if_pos hp, htex]
    rfl

/-- The sort of `process_commands` is sorted by key. -/
theorem mergeSort_sorted_keys (cmds : List RenderCommand) :
    (cmds.mergeSort cmdLE).Pairwise (fun a b => a.key ≤ b.key) := by
  have h := @List.sorted_mergeSort RenderCommand cmdLE cmdLE_trans
    cmdLE_total cmds
  exact h.imp (fun hab => by simpa [cmdLE] using hab)

/-- Stability of the sort: the equal-key commands appear in the sorted list
exactly as they appear, in order, in the submitted list. -/
theorem mergeSort_filter_key (cmds : List RenderCommand) (K : Nat) :
    (cmds.mergeSort cmdLE).filter (fun c => c.key == K) =
      cmds.filter (fun c => c.key == K) := by
  have hpw : (cmds.filter (fun c => c.key == K)).Pairwise
      (fun a b => cmdLE a b) := by
    apply List.pairwise_of_forall_mem_list
    intro a ha b hb
    have ha' := List.of_mem_filter ha
    have hb' := List.of_mem_filter hb
    simp only [beq_iff_eq] at ha' hb'
    simp [cmdLE, ha', hb']
  have hsub : List.Sublist (cmds.filter (fun c => c.key == K))
      (cmds.mergeSort cmdLE) :=
    List.sublist_mergeSort cmdLE_trans cmdLE_total hpw
      (List.filter_sublist cmds)
  have hsub2 : List.Sublist (cmds.filter (fun c => c.key == K))
      ((cmds.mergeSort cmdLE).filter (fun c => c.key == K)) := by
    have h := hsub.filter (fun c => c.key == K)
    rwa [List.filter_eq_self.mpr (fun a ha => List.mem_filter.mp ha |>.2)] at h
  have hperm : List.Perm ((cmds.mergeSort cmdLE).filter (fun c => c.key == K))
      (cmds.filter (fun c => c.key == K)) :=
    (List.mergeSort_perm cmds cmdLE).filter _
  exact (hsub2.eq_of_length hperm.length_eq.symm).symm

theorem alistInsert_insert {κ ν : Type} [DecidableEq κ]
    (l : List (κ × ν)) (k : κ) (v v' : ν) :
    alistInsert (alistInsert l k v) k v' = alistInsert l k v' := by
  induction l with
  | nil => simp [alistInsert]
  | cons hd tl ih =>
    obtain ⟨k0, v0⟩ := hd
    by_cases h : k0 = k
    · subst h
      simp [alistInsert]
    · simp [alistInsert, h, ih]

theorem process_command_fold (nb : RenderBatch) (c : RenderCommand)
    (L : List RenderCommand) :
    { nb.process_command c with batch_mesh :=
        (L.foldl (mesh_step (nb.process_command c).tex_info.2.1
            (nb.process_command c).tex_info.2.2)
          (nb.process_command c).batch_mesh) } =
    { nb with batch_mesh :=
        ((c :: L).foldl (mesh_step nb.tex_info.2.1 nb.tex_info.2.2)
          nb.batch_mesh) } := by
  simp only [RenderBatch.process_command_eq, List.foldl_cons]

theorem process_step_continue {ls : LoopState} {c : RenderCommand} {k0 : Nat}
    {b : RenderBatch} (hcur : ls.cur = some k0)
    (hb : alistGet ls.r.batches k0 = some b) (heq : b.key = c.key) :
    process_step ls c = some ⟨{ ls.r with batches :=
      (alistInsert ls.r.batches k0 (b.process_command c)) },
      ls.batch_keys, ls.cur⟩ := by
  have hflush := step_flush_stay hcur hb heq
  simp only [process_step, hflush, hcur, hb]

theorem process_step_open {ls : LoopState} {c : RenderCommand}
    {keys1 : List Nat} (hwf : BatchesWf ls.r.batches)
    (hflush : step_flush ls c = ⟨ls.r, keys1, none⟩)
    (hp : c.shader_program_id ∈ ls.r.shader_programs) :
    ∃ (r2 : Renderer) (nb : RenderBatch),
      process_step ls c = some ⟨r2, keys1, some c.key⟩ ∧
      r2.batches = alistInsert ls.r.batches c.key (nb.process_command c) ∧
      r2.shader_programs = ls.r.shader_programs ∧
      nb.key = c.key ∧ nb.batch_mesh = ⟨[], []⟩ := by
  rcases hb : alistGet ls.r.batches (gen_key c.transparency c.layer
      c.shader_program_id c.tex_id) with _ | b
  · obtain ⟨nb, hcrb, hnbk, hnbm⟩ := create_render_batch_fresh hb hp
    refine ⟨{ ls.r with
        batches := (alistInsert ls.r.batches
          (gen_key c.transparency c.layer c.shader_program_id c.tex_id)
          (nb.process_command c)),
        next_handle := ls.r.next_handle + 3,
        descriptor_allocs := ls.r.descriptor_allocs + 1,
        descriptor_writes := ls.r.descriptor_writes + 1,
        buffer_allocs := ls.r.buffer_allocs + 2 }, nb, ?_, rfl, rfl,
        hnbk, hnbm⟩
    simp only [process_step, hflush, hcrb, alistGet_insert_self,
      alistInsert_insert]
    rfl
  · have hcrb := create_render_batch_reuse hb
    refine ⟨{ ls.r with
        batches := (alistInsert ls.r.batches
          (gen_key c.transparency c.layer c.shader_program_id c.tex_id)
          (RenderBatch.clear b |>.process_command c)) }, b.clear, ?_, rfl,
        rfl, (RenderBatch.key_clear b).trans (hwf _ _ hb), rfl⟩
    simp only [process_step, hflush, hcrb, alistGet_insert_self,
      alistInsert_insert]
    rfl

/-- Ordering discipline of the loop's output keys: strictly increasing, all
below the open batch's key, and empty while no batch has been opened. -/
def KeysOrd (ls : LoopState) : Prop :=
  ls.batch_keys.Pairwise (· < ·) ∧
  (∀ k0, ls.cur = some k0 → ∀ k ∈ ls.batch_keys, k < k0) ∧
  (ls.cur = none → ls.batch_keys = [])

/-- Preconditions of the batching loop on the remaining (sorted) command
list. -/
def ProcessListPre (L : List RenderCommand) (ls : LoopState) : Prop :=
  BatchesWf ls.r.batches ∧
  (∀ k, ls.cur = some k → ∃ b, alistGet ls.r.batches k = some b) ∧
  (∀ c ∈ L, c.shader_program_id ∈ ls.r.shader_programs) ∧
  (∀ c ∈ L, ∀ k0, ls.cur = some k0 → k0 ≤ c.key) ∧
  L.Pairwise (fun a b => a.key ≤ b.key) ∧
  KeysOrd ls

/-- Postconditions of the batching loop: invariants are preserved, untouched
keys keep their batches, and every key occurring in `L` maps to a single
batch whose mesh is the fold of exactly the key's commands of `L`, in order,
over the mesh the batch started from (the empty mesh unless the batch was
already open as the cursor). -/
def ProcessListPost (L : List RenderCommand) (ls ls' : LoopState) : Prop :=
  BatchesWf ls'.r.batches ∧
  ls'.r.shader_programs = ls.r.shader_programs ∧
  (∀ k, ls'.cur = some k → ∃ b, alistGet ls'.r.batches k = some b) ∧
  KeysOrd ls' ∧
  (∀ k, k ∉ L.map RenderCommand.key →
    alistGet ls'.r.batches k = alistGet ls.r.batches k) ∧
  (∀ k, k ∈ L.map RenderCommand.key →
    ∃ b0 b1, alistGet ls'.r.batches k = some b1 ∧
      b1 = { b0 with batch_mesh :=
        ((L.filter (fun c => c.key == k)).foldl
          (mesh_step b0.tex_info.2.1 b0.tex_info.2.2) b0.batch_mesh) } ∧
      (ls.cur = some k → alistGet ls.r.batches k = some b0) ∧
      (ls.cur ≠ some k → b0.batch_mesh = ⟨[], []⟩))

/-- The "open a batch" continuation of one loop step: after a flush left no
open batch, the head command opens (or reuses, clearing) the batch of its own
key and the loop continues on the tail. -/
theorem process_list_open_aux (c : RenderCommand) (rest : List RenderCommand)
    (ih : ∀ ls2 : LoopState, ProcessListPre rest ls2 →
      ∃ ls', process_list ls2 rest = some ls' ∧ ProcessListPost rest ls2 ls')
    (ls : LoopState) (keys1 : List Nat)
    (hwf : BatchesWf ls.r.batches)
    (hflush : step_flush ls c = ⟨ls.r, keys1, none⟩)
    (hp : c.shader_program_id ∈ ls.r.shader_programs)
    (hpr_rest : ∀ c' ∈ rest, c'.shader_program_id ∈ ls.r.shader_programs)
    (hso_head : ∀ c' ∈ rest, c.key ≤ c'.key)
    (hso_rest : rest.Pairwise (fun a b => a.key ≤ b.key))
    (hk1p : keys1.Pairwise (· < ·))
    (hk1lt : ∀ x ∈ keys1, x < c.key)
    (hcur_lt : ∀ k0, ls.cur = some k0 → k0 < c.key) :
    ∃ ls', process_list ls (c :: rest) = some ls' ∧
      ProcessListPost (c :: rest) ls ls' := by
  obtain ⟨r2, nb, hstep, hr2b, hr2p, hnbk, hnbm⟩ :=
    process_step_open hwf hflush hp
  have hwf2 : BatchesWf r2.batches := by
    rw [hr2b]
    exact BatchesWf_insert hwf
      ((RenderBatch.key_process_command nb c).trans hnbk)
  have hpre2 : ProcessListPre rest ⟨r2, keys1, some c.key⟩ := by
    refine ⟨hwf2, ?_, ?_, ?_, hso_rest, hk1p, ?_, ?_⟩
    · intro k hk
      have hk' : c.key = k := Option.some.inj hk
      subst hk'
      rw [show (⟨r2, keys1, some c.key⟩ : LoopState).r = r2 from rfl, hr2b]
      exact ⟨_, alistGet_insert_self _ _ _⟩
    · intro c' hc'
      show c'.shader_program_id ∈ r2.shader_programs
      rw [hr2p]
      exact hpr_rest c' hc'
    · intro c' hc' k0 hk0
      have : c.key = k0 := Option.some.inj hk0
      subst this
      exact hso_head c' hc'
    · intro k0 hk0 k hk
      have : c.key = k0 := Option.some.inj hk0
      subst this
      exact hk1lt k hk
    · intro h
      exact Option.noConfusion h
  obtain ⟨ls', hE, hwf', hsp', hcl', hko', hU', hM'⟩ := ih _ hpre2
  have hsp : ls'.r.shader_programs = ls.r.shader_programs := hsp'.trans hr2p
  refine ⟨ls', ?_, hwf', hsp, hcl', hko', ?_, ?_⟩
  · simp only [process_list, hstep]
    exact hE
  · intro k hk
    simp only [List.map_cons, List.mem_cons, not_or] at hk
    have h1 : alistGet ls'.r.batches k = alistGet r2.batches k := hU' k hk.2
    rw [h1, hr2b, alistGet_insert_ne _ _ _ _ hk.1]
  · intro k hk
    simp only [List.map_cons, List.mem_cons] at hk
    by_cases hkrest : k ∈ rest.map RenderCommand.key
    · obtain ⟨b0', b1', hlook, hb1, hc1, hc2⟩ := hM' k hkrest
      have hlook' : alistGet ls'.r.batches k = some b1' := hlook
      by_cases hkc : k = c.key
      · subst hkc
        have hb0' : alistGet r2.batches c.key = some b0' := hc1 rfl
        rw [hr2b, alistGet_insert_self] at hb0'
        have hb0'' : nb.process_command c = b0' := Option.some.inj hb0'
        subst hb0''
        rw [process_command_fold] at hb1
        refine ⟨nb, b1', hlook', ?_, ?_, fun _ => hnbm⟩
        · rw [List.filter_cons_of_pos (by simp)]
          exact hb1
        · intro h
          exact absurd (hcur_lt _ h) (lt_irrefl _)
      · obtain ⟨c', hc'm, hc'k⟩ := List.mem_map.mp hkrest
        have hb0m : b0'.batch_mesh = ⟨[], []⟩ := by
          refine hc2 ?_
          intro h
          exact hkc ((Option.some.inj h).symm)
        refine ⟨b0', b1', hlook', ?_, ?_, fun _ => hb0m⟩
        · rw [List.filter_cons_of_neg
            (by simp only [beq_iff_eq]; exact fun h => hkc h.symm)]
          exact hb1
        · intro h
          exact absurd (hcur_lt _ h)
            (Nat.not_lt.mpr (hc'k ▸ hso_head c' hc'm))
    · have hkc : k = c.key := hk.resolve_right hkrest
      subst hkc
      have h1 : alistGet ls'.r.batches c.key = alistGet r2.batches c.key :=
        hU' c.key hkrest
      rw [hr2b, alistGet_insert_self] at h1
      refine ⟨nb, nb.process_command c, h1, ?_, ?_, fun _ => hnbm⟩
      · have hnil : rest.filter (fun c' => c'.key == c.key) = [] := by
          rw [List.filter_eq_nil_iff]
          intro c' hc'
          simp only [beq_iff_eq]
          intro he
          exact hkrest (List.mem_map.mpr ⟨c', hc', he⟩)
        rw [List.filter_cons_of_pos (by simp), hnil]
        exact RenderBatch.process_command_eq nb c
      · intro h
        exact absurd (hcur_lt _ h) (lt_irrefl _)

theorem LoopState.eta_of_cur_none {ls : LoopState} (h : ls.cur = none) :
    ls = ⟨ls.r, ls.batch_keys, none⟩ := by
  obtain ⟨r0, keys0, cur0⟩ := ls
  change cur0 = none at h
  subst h
  rfl

/-- Main loop invariant lemma: on a sorted command list the batching loop
succeeds and produces, for each key occurring in the list, one batch holding
the fold of exactly that key's commands in list order. -/
theorem process_list_spec : ∀ (L : List RenderCommand) (ls : LoopState),
    ProcessListPre L ls →
    ∃ ls', process_list ls L = some ls' ∧ ProcessListPost L ls ls' := by
  intro L
  induction L with
  | nil =>
    intro ls hpre
    obtain ⟨hwf, hcl, _, _, _, hko⟩ := hpre
    exact ⟨ls, rfl, hwf, rfl, hcl, hko, fun k _ => rfl,
      fun k hk => absurd hk (by simp)⟩
  | cons c rest ih =>
    intro ls hpre
    obtain ⟨hwf, hcl, hpr, hcb, hso, hko⟩ := hpre
    have hso_head : ∀ c' ∈ rest, c.key ≤ c'.key :=
      (List.pairwise_cons.mp hso).1
    have hso_rest : rest.Pairwise (fun a b => a.key ≤ b.key) :=
      (List.pairwise_cons.mp hso).2
    have hp : c.shader_program_id ∈ ls.r.shader_programs :=
      hpr c (List.mem_cons_self c rest)
    have hpr_rest : ∀ c' ∈ rest,
        c'.shader_program_id ∈ ls.r.shader_programs :=
      fun c' hc' => hpr c' (List.mem_cons_of_mem c hc')
    rcases hcur : ls.cur with _ | k0
    · have hknil : ls.batch_keys = [] := hko.2.2 hcur
      have hflush : step_flush ls c = ⟨ls.r, ls.batch_keys, none⟩ := by
        rw [step_flush_of_cur_none hcur]
        exact LoopState.eta_of_cur_none hcur
      exact process_list_open_aux c rest ih ls ls.batch_keys hwf hflush hp
        hpr_rest hso_head hso_rest
        (by rw [hknil]; exact List.Pairwise.nil)
        (by intro x hx; rw [hknil] at hx; cases hx)
        (by intro kk h; rw [hcur] at h; cases h)
    · obtain ⟨b, hb⟩ := hcl k0 hcur
      have hk0 : b.key = k0 := hwf _ _ hb
      by_cases hkey : b.key = c.key
      · have hk0c : k0 = c.key := hk0.symm.trans hkey
        have hstep := process_step_continue hcur hb hkey
        have hpre2 : ProcessListPre rest ⟨{ ls.r with batches :=
            (alistInsert ls.r.batches k0 (b.process_command c)) },
            ls.batch_keys, ls.cur⟩ := by
          refine ⟨?_, ?_, ?_, ?_, hso_rest, ?_⟩
          · exact BatchesWf_insert hwf
              ((RenderBatch.key_process_command b c).trans hk0)
          · intro k hk
            have hk' : ls.cur = some k := hk
            rw [hcur] at hk'
            have hkk : k0 = k := Option.some.inj hk'
            subst hkk
            exact ⟨_, alistGet_insert_self _ _ _⟩
          · intro c' hc'
            exact hpr_rest c' hc'
          · intro c' hc' kk hkk
            have hk' : ls.cur = some kk := hkk
            rw [hcur] at hk'
            have hkk0 : k0 = kk := Option.some.inj hk'
            subst hkk0
            rw [hk0c]
            exact hso_head c' hc'
          · exact hko
        obtain ⟨ls', hE, hwf', hsp', hcl', hko', hU', hM'⟩ := ih _ hpre2
        refine ⟨ls', ?_, hwf', hsp', hcl', hko', ?_, ?_⟩
        · simp only [process_list, hstep]
          exact hE
        · intro k hk
          simp only [List.map_cons, List.mem_cons, not_or] at hk
          have h1 : alistGet ls'.r.batches k =
              alistGet (alistInsert ls.r.batches k0 (b.process_command c))
                k := hU' k hk.2
          rw [h1,
            alistGet_insert_ne _ _ _ _ (fun he => hk.1 (he.trans hk0c))]
        · intro k hk
          simp only [List.map_cons, List.mem_cons] at hk
          by_cases hkrest : k ∈ rest.map RenderCommand.key
          · obtain ⟨b0', b1', hlook, hb1, hc1, hc2⟩ := hM' k hkrest
            have hlook' : alistGet ls'.r.batches k = some b1' := hlook
            by_cases hkc : k = c.key
            · subst hkc
              have hb0' : alistGet (alistInsert ls.r.batches k0
                  (b.process_command c)) c.key = some b0' :=
                hc1 (show ls.cur = some c.key by rw [hcur, hk0c])
              rw [← hk0c, alistGet_insert_self] at hb0'
              have hbb : b.process_command c = b0' := Option.some.inj hb0'
              subst hbb
              rw [process_command_fold] at hb1
              refine ⟨b, b1', hlook', ?_, ?_, ?_⟩
              · rw [List.filter_cons_of_pos (by simp)]
                exact hb1
              · intro _
                rw [← hk0c]
                exact hb
              · intro hne
                exact absurd
                  (show ls.cur = some c.key by rw [hcur, hk0c]) hne
            · have hb0m : b0'.batch_mesh = ⟨[], []⟩ := by
                refine hc2 ?_
                intro h
                have h' : ls.cur = some k := h
                rw [hcur] at h'
                exact hkc ((Option.some.inj h').symm.trans hk0c)
              refine ⟨b0', b1', hlook', ?_, ?_, fun _ => hb0m⟩
              · rw [List.filter_cons_of_neg
                  (by simp only [beq_iff_eq]; exact fun h => hkc h.symm)]
                exact hb1
              · intro h
                rw [hcur] at h
                exact absurd ((Option.some.inj h).symm.trans hk0c) hkc
          · have hkc : k = c.key := hk.resolve_right hkrest
            subst hkc
            have h1 : alistGet ls'.r.batches c.key =
                alistGet (alistInsert ls.r.batches k0 (b.process_command c))
                  c.key := hU' c.key hkrest
            rw [hk0c, alistGet_insert_self] at h1
            refine ⟨b, b.process_command c, h1, ?_, ?_, ?_⟩
            · have hnil : rest.filter (fun c' => c'.key == c.key) = [] := by
                rw [List.filter_eq_nil_iff]
                intro c' hc'
                simp only [beq_iff_eq]
                intro he
                exact hkrest (List.mem_map.mpr ⟨c', hc', he⟩)
              rw [List.filter_cons_of_pos (by simp), hnil]
              exact RenderBatch.process_command_eq b c
            · intro _
              rw [← hk0c]
              exact hb
            · intro hne
              exact absurd
                (show ls.cur = some c.key by rw [hcur, hk0c]) hne
      · have hflush := step_flush_trigger hcur hb hkey
        have hk0le : k0 ≤ c.key := hcb c (List.mem_cons_self c rest) k0 hcur
        have hk0lt : k0 < c.key :=
          lt_of_le_of_ne hk0le (fun he => hkey (hk0.trans he))
        refine process_list_open_aux c rest ih ls (ls.batch_keys ++ [b.key])
          hwf hflush hp hpr_rest hso_head hso_rest ?_ ?_ ?_
        · rw [List.pairwise_append]
          refine ⟨hko.1, List.pairwise_singleton _ _, ?_⟩
          intro x hx y hy
          have hyb : y = b.key := by simpa using hy
          subst hyb
          rw [hk0]
          exact hko.2.1 k0 hcur x hx
        · intro x hx
          rcases List.mem_append.mp hx with h | h
          · exact lt_trans (hko.2.1 k0 hcur x h) hk0lt
          · have hxb : x = b.key := by simpa using h
            subst hxb
            rw [hk0]
            exact hk0lt
        · intro kk h
          rw [hcur] at h
          have hkk : k0 = kk := Option.some.inj h
          subst hkk
          exact hk0lt

theorem process_list_spec_sorted (r : Renderer) (cmds : List RenderCommand)
    (hwf : BatchesWf r.batches)
    (hprogs : ∀ c ∈ cmds, c.shader_program_id ∈ r.shader_programs) :
    ∃ ls', process_list ⟨r, [], none⟩ (cmds.mergeSort cmdLE) = some ls' ∧
      ProcessListPost (cmds.mergeSort cmdLE) ⟨r, [], none⟩ ls' := by
  apply process_list_spec
  refine ⟨hwf, ?_, ?_, ?_, mergeSort_sorted_keys cmds, ?_, ?_, ?_⟩
  · intro k hk
    exact Option.noConfusion hk
  · intro c hc
    exact hprogs c (List.mem_mergeSort.mp hc)
  · intro c hc k0 hk0
    exact Option.noConfusion hk0
  · exact List.Pairwise.nil
  · intro k0 h
    exact Option.noConfusion h
  · intro _
    rfl

/-- C1: after `process_commands`, all commands sharing a
(transparency, layer, shader program, texture) key have their geometry
appended into exactly one batch's mesh — the batch stored under that key,
whose mesh is the geometry fold of exactly those commands in their original
submission order (the sort by key is stable) — while batches of keys not
occurring in the input are untouched. -/
theorem process_commands_same_key_one_batch (r : Renderer)
    (cmds : List RenderCommand)
    (hwf : BatchesWf r.batches)
    (hprogs : ∀ c ∈ cmds, c.shader_program_id ∈ r.shader_programs) :
    ∃ r' keys, process_commands r cmds = some (r', keys) ∧
      (∀ c ∈ cmds, ∃ b, alistGet r'.batches c.key = some b ∧
        b.batch_mesh =
          (cmds.filter (fun x => x.key == c.key)).foldl
            (mesh_step b.tex_info.2.1 b.tex_info.2.2) ⟨[], []⟩) ∧
      (∀ k, k ∉ cmds.map RenderCommand.key →
        alistGet r'.batches k = alistGet r.batches k) := by
  obtain ⟨ls', hE, hwf', hsp', hcl', hko', hU', hM'⟩ :=
    process_list_spec_sorted r cmds hwf hprogs
  have hmem_keys : ∀ k, k ∈ (cmds.mergeSort cmdLE).map RenderCommand.key ↔
      k ∈ cmds.map RenderCommand.key :=
    fun k => ((List.mergeSort_perm cmds cmdLE).map RenderCommand.key).mem_iff
  have hbatch : ∀ c ∈ cmds, ∃ b, alistGet ls'.r.batches c.key = some b ∧
      b.batch_mesh = (cmds.filter (fun x => x.key == c.key)).foldl
        (mesh_step b.tex_info.2.1 b.tex_info.2.2) ⟨[], []⟩ := by
    intro c hc
    have hkmem : c.key ∈ (cmds.mergeSort cmdLE).map RenderCommand.key :=
      (hmem_keys c.key).mpr (List.mem_map_of_mem _ hc)
    obtain ⟨b0, b1, hlook, hb1, _, hmesh0⟩ := hM' c.key hkmem
    have hm0 : b0.batch_mesh = ⟨[], []⟩ :=
      hmesh0 (fun h => Option.noConfusion h)
    refine ⟨b1, hlook, ?_⟩
    have htex : b1.tex_info = b0.tex_info := by rw [hb1]
    have hmesh : b1.batch_mesh = ((cmds.mergeSort cmdLE).filter
        (fun x => x.key == c.key)).foldl
        (mesh_step b0.tex_info.2.1 b0.tex_info.2.2) b0.batch_mesh := by
      rw [hb1]
    rw [hmesh, hm0, mergeSort_filter_key, htex]
  have huntouched : ∀ k, k ∉ cmds.map RenderCommand.key →
      alistGet ls'.r.batches k = alistGet r.batches k := by
    intro k hk
    have h1 : alistGet ls'.r.batches k =
        alistGet (⟨r, [], none⟩ : LoopState).r.batches k :=
      hU' k (fun hm => hk ((hmem_keys k).mp hm))
    exact h1
  rcases hcur' : ls'.cur with _ | ck
  · refine ⟨ls'.r, ls'.batch_keys, ?_, hbatch, huntouched⟩
    simp only [process_commands, hE, hcur']
  · obtain ⟨bq, hbq⟩ := hcl' ck hcur'
    refine ⟨ls'.r, ls'.batch_keys ++ [bq.key], ?_, hbatch, huntouched⟩
    simp only [process_commands, hE, hcur', hbq]

/-- Two concrete commands sharing one batch key (differing quads). -/
def cW1 : RenderCommand :=
  ⟨.Opaque, 0, 0, 0, .Quad (0,0) (1,0) (0,1) (1,1) COLOR_WHITE⟩

/-- Second concrete command with the same key as `cW1`. -/
def cW2 : RenderCommand :=
  ⟨.Opaque, 0, 0, 0, .Quad (2,2) (3,2) (2,3) (3,3) COLOR_WHITE⟩

/-- Witness for C1 on a concrete renderer and two same-key commands. -/
theorem process_commands_same_key_one_batch_witness :
    ∃ r' keys, process_commands testRenderer [cW1, cW2] = some (r', keys) ∧
      (∀ c ∈ [cW1, cW2], ∃ b, alistGet r'.batches c.key = some b ∧
        b.batch_mesh =
          ([cW1, cW2].filter (fun x => x.key == c.key)).foldl
            (mesh_step b.tex_info.2.1 b.tex_info.2.2) ⟨[], []⟩) ∧
      (∀ k, k ∉ [cW1, cW2].map RenderCommand.key →
        alistGet r'.batches k = alistGet testRenderer.batches k) :=
  process_commands_same_key_one_batch testRenderer [cW1, cW2] BatchesWf_nil
    (by decide)

/-- C9: the batch-key list returned by `process_commands` contains no
duplicate key, and the empty input yields the empty key list. -/
theorem process_commands_keys_nodup (r : Renderer)
    (cmds : List RenderCommand)
    (hwf : BatchesWf r.batches)
    (hprogs : ∀ c ∈ cmds, c.shader_program_id ∈ r.shader_programs) :
    (∃ r' keys, process_commands r cmds = some (r', keys) ∧ keys.Nodup) ∧
    process_commands r [] = some (r, []) := by
  refine ⟨?_, by simp only [process_commands, List.mergeSort_nil, process_list]⟩
  obtain ⟨ls', hE, hwf', hsp', hcl', hko', hU', hM'⟩ :=
    process_list_spec_sorted r cmds hwf hprogs
  rcases hcur' : ls'.cur with _ | ck
  · refine ⟨ls'.r, ls'.batch_keys, ?_, ?_⟩
    · simp only [process_commands, hE, hcur']
    · exact hko'.1.imp (fun h => Nat.ne_of_lt h)
  · obtain ⟨bq, hbq⟩ := hcl' ck hcur'
    refine ⟨ls'.r, ls'.batch_keys ++ [bq.key], ?_, ?_⟩
    · simp only [process_commands, hE, hcur', hbq]
    · have hlt : ∀ x ∈ ls'.batch_keys, x < bq.key := by
        intro x hx
        rw [hwf' ck bq hbq]
        exact hko'.2.1 ck hcur' x hx
      have hpw : (ls'.batch_keys ++ [bq.key]).Pairwise (· < ·) := by
        rw [List.pairwise_append]
        refine ⟨hko'.1, List.pairwise_singleton _ _, ?_⟩
        intro x hx y hy
        have hyb : y = bq.key := by simpa using hy
        subst hyb
        exact hlt x hx
      exact hpw.imp (fun h => Nat.ne_of_lt h)

/-- Witness for C9: the same-key pair yields a single batch key, and the
empty input yields no keys. -/
theorem process_commands_keys_nodup_witness :
    (∃ r' keys, process_commands testRenderer [cW1, cW2] = some (r', keys) ∧
      keys.Nodup) ∧
    process_commands testRenderer [] = some (testRenderer, []) :=
  process_commands_keys_nodup testRenderer [cW1, cW2] BatchesWf_nil
    (by decide)

end Gfx
